import Mathlib

/-!
# Verification of `pkg/client/client.go`

Shallow embedding of the Nutanix Prism Central client factory (`Client`) and of the
trust-anchor loader (`getCACertificates`).

Conventions of the embedding

* A Go `string` is a Lean `String`; `[]byte(s)` is the UTF-8 byte list of `s`.
* A Go slice that may be `nil` is an `Option (List α)`: `none` is the `nil` slice and
  `some []` is an empty non-nil slice (what `make([]T, 0)` returns).
* A Go call returning `(value, error)` is an `Except Error value`.
* A run that ends in a run-time panic is `Go.panic`; a run that returns is `Go.ret`.
* The external collaborators (`os.LookupEnv`, `pem.Decode`, `x509.ParseCertificate`,
  `zap.NewProduction`, `zap.NewDevelopment`, the Kubernetes client and
  `nutanixClientV3.NewV3Client`) are parameters of the embedding.
* Log statements have no effect on any returned value and are left out.
* `Client` also stores the credentials it resolved back through the `options` pointer;
  that write does not influence what `Client` returns or passes on and is left out.
* A method call on a nil interface value (`kubeClient.CoreV1()` with a nil `kubeClient`)
  is a nil dereference: the run panics.
-/

set_option linter.unusedVariables false

namespace NutanixClient

/-! ## Constants -/

def userCAConfigMapNamespace : String := "openshift-config"
def userCAConfigMap : String := "user-ca-bundle"
def userCABundleKey : String := "ca-bundle.crt"

def NutanixEndpointKey : String := "NUTANIX_PRISM_CENTRAL_ENDPOINT"
def NutanixPortKey : String := "NUTANIX_PRISM_CENTRAL_PORT"
def NutanixUserKey : String := "NUTANIX_PRISM_CENTRAL_USER"
def NutanixPasswordKey : String := "NUTANIX_PRISM_CENTRAL_PASSWORD"

/-! ## Data model -/

/-- Go `error` values. -/
abbrev Error := String

/-- Go `[]byte`. -/
abbrev Bytes := List UInt8

/-- The conversion `[]byte(s)` of a Go string. -/
def stringBytes (s : String) : Bytes := s.toUTF8.data.toList

/-- Outcome of running a Go function: it panics or it returns a value. -/
inductive Go (α : Type) where
  | panic : Go α
  | ret : α → Go α
  deriving DecidableEq

/-- The fields of `pem.Block` that the loader reads (`Type` and `Bytes`). -/
structure PemBlock where
  Typ : String
  Bytes : Bytes
  deriving DecidableEq

/-- The function `pem.Decode`: it returns the next block and the remaining input, or no
block. The remaining input is a proper tail of the input, so it is strictly shorter. -/
structure PemDecoder where
  decode : Bytes → Option (PemBlock × Bytes)
  rest_lt : ∀ data block rest, decode data = some (block, rest) → rest.length < data.length

/-- The part of `corev1.ConfigMap` that the loader reads: the `Data` map, whose values
are UTF-8 strings; a key is looked up with `List.lookup`. -/
structure ConfigMap where
  Data : List (String × String)
  deriving DecidableEq

/-- A non-nil `kubernetes.Interface`, reduced to the one call the loader makes:
`CoreV1().ConfigMaps(namespace).Get(ctx, name, opts)`. -/
structure KubeClient where
  getConfigMap : String → String → Except Error ConfigMap

/-- The fields of `nutanixClient.Credentials` that the factory reads or writes. -/
structure Credentials where
  URL : String
  Username : String
  Password : String
  Endpoint : String
  Port : String
  deriving DecidableEq

/-- The struct `ClientOptions`; `kubeClient` is `none` for a nil interface value. -/
structure ClientOptions where
  Credentials : Option Credentials
  Debug : Bool
  kubeClient : Option KubeClient

/-- The two option kinds the factory hands to the remote-client constructor. -/
inductive ClientOption (Z Cert : Type) where
  | WithLogger : Z → ClientOption Z Cert
  | WithCertificate : Cert → ClientOption Z Cert
  deriving DecidableEq

/-- The collaborators of the package other than the remote-client constructor. -/
structure Collaborators (Z Cert : Type) where
  lookupEnv : String → Option String
  pem : PemDecoder
  parseCertificate : Bytes → Except Error Cert
  newProduction : Except Error Z
  newDevelopment : Except Error Z

/-! ## The trust-anchor loader -/

/-- The `for` loop of `getCACertificates`, with the loop variables `pemBlocks` and
`certs` as arguments. -/
def decodeLoop {Cert : Type} (d : PemDecoder) (parseCertificate : Bytes → Except Error Cert)
    (pemBlocks : Bytes) (certs : List Cert) : List Cert :=
  match h : d.decode pemBlocks with
  | none => certs
  | some (block, rest) =>
    if block.Typ ≠ "CERTIFICATE" then
      decodeLoop d parseCertificate rest certs
    else
      match parseCertificate block.Bytes with
      | .error _ => certs
      | .ok cert => decodeLoop d parseCertificate rest (certs ++ [cert])
termination_by pemBlocks.length
decreasing_by
  all_goals exact d.rest_lt _ _ _ h

/-- The function `getCACertificates`. -/
def getCACertificates {Z Cert : Type} (sys : Collaborators Z Cert)
    (kubeClient : Option KubeClient) : Go (Option (List Cert)) :=
  match kubeClient with
  | none => .panic
  | some kc =>
    match kc.getConfigMap userCAConfigMapNamespace userCAConfigMap with
    | .error _ => .ret none
    | .ok configMap =>
      match configMap.Data.lookup userCABundleKey with
      | none => .ret none
      | some cacert =>
        let certs := decodeLoop sys.pem sys.parseCertificate (stringBytes cacert) []
        if certs.length = 0 then .ret none else .ret (some certs)

/-! ## The client factory -/

/-- The function `getEnvVar`. -/
def getEnvVar (lookupEnv : String → Option String) (key : String) : String :=
  match lookupEnv key with
  | some val => val
  | none => ""

/-- The function `Client`; `newV3Client` is `nutanixClientV3.NewV3Client`. -/
def Client {Z Cert H : Type} (sys : Collaborators Z Cert)
    (newV3Client : Credentials → List (ClientOption Z Cert) → Except Error H)
    (options : ClientOptions) : Go (Except Error H) :=
  let credentials : Credentials :=
    match options.Credentials with
    | some c => c
    | none =>
      let username := getEnvVar sys.lookupEnv NutanixUserKey
      let password := getEnvVar sys.lookupEnv NutanixPasswordKey
      let port := getEnvVar sys.lookupEnv NutanixPortKey
      let endpoint := getEnvVar sys.lookupEnv NutanixEndpointKey
      { URL := "", Username := username, Password := password, Port := port,
        Endpoint := endpoint }
  let credentials : Credentials :=
    if credentials.URL.length = 0 then
      { credentials with URL := credentials.Endpoint ++ ":" ++ credentials.Port }
    else credentials
  match sys.newProduction with
  | .error err => .ret (.error err)
  | .ok zapLog =>
    match (if options.Debug then sys.newDevelopment else .ok zapLog) with
    | .error err => .ret (.error err)
    | .ok zapLog =>
      let clientOpts : List (ClientOption Z Cert) := [.WithLogger zapLog]
      match getCACertificates sys options.kubeClient with
      | .panic => .panic
      | .ret certs =>
        let clientOpts :=
          match certs with
          | some certs => clientOpts ++ certs.map .WithCertificate
          | none => clientOpts
        match newV3Client credentials clientOpts with
        | .error err => .ret (.error err)
        | .ok cli => .ret (.ok cli)

/-! ## Specification-side notions -/

/-- The PEM stream of an input: the blocks that repeated decoding yields, left to
right, up to the point where no further block can be decoded. -/
def pemStream (d : PemDecoder) (data : Bytes) : List PemBlock :=
  match h : d.decode data with
  | none => []
  | some (block, rest) => block :: pemStream d rest
termination_by data.length
decreasing_by
  all_goals exact d.rest_lt _ _ _ h

/-- A block is typed `CERTIFICATE`. -/
def PemBlock.isCertificate (b : PemBlock) : Bool := decide (b.Typ = "CERTIFICATE")

/-- The X.509 parses of the `CERTIFICATE`-typed blocks of a block list, in order
(a block that does not parse contributes nothing). -/
def parsedCertificates {Cert : Type} (parseCertificate : Bytes → Except Error Cert)
    (blocks : List PemBlock) : List Cert :=
  (blocks.filter PemBlock.isCertificate).filterMap
    (fun b => (parseCertificate b.Bytes).toOption)

/-- The certificates of a block list up to its first `CERTIFICATE`-typed block that
fails to parse. -/
def certificatesBeforeFailure {Cert : Type} (parseCertificate : Bytes → Except Error Cert) :
    List PemBlock → List Cert
  | [] => []
  | b :: bs =>
    if b.Typ ≠ "CERTIFICATE" then certificatesBeforeFailure parseCertificate bs
    else
      match parseCertificate b.Bytes with
      | .error _ => []
      | .ok cert => cert :: certificatesBeforeFailure parseCertificate bs

/-- The constructor call that `Client` makes: `Client` run with a constructor that
returns its two arguments. -/
def constructorCall {Z Cert : Type} (sys : Collaborators Z Cert) (options : ClientOptions) :
    Go (Except Error (Credentials × List (ClientOption Z Cert))) :=
  Client sys (fun credentials clientOpts => .ok (credentials, clientOpts)) options

/-- An option is a trust-anchor option. -/
def ClientOption.isCertificate {Z Cert : Type} : ClientOption Z Cert → Bool
  | .WithLogger _ => false
  | .WithCertificate _ => true

/-! ## Test doubles used to run the embedding on concrete inputs -/

/-- A two-byte stand-in for PEM: `C` followed by a body byte is a `CERTIFICATE` block,
`K` followed by a body byte is a `PUBLIC KEY` block, anything else is undecodable. -/
def stubDecode : Bytes → Option (PemBlock × Bytes)
  | 67 :: b :: rest => some (⟨"CERTIFICATE", [b]⟩, rest)
  | 75 :: b :: rest => some (⟨"PUBLIC KEY", [b]⟩, rest)
  | _ => none

def stubPem : PemDecoder where
  decode := stubDecode
  rest_lt := by
    intro data block rest h
    unfold stubDecode at h
    split at h
    · simp only [Option.some.injEq, Prod.mk.injEq] at h
      obtain ⟨-, rfl⟩ := h
      simp only [List.length_cons]
      omega
    · simp only [Option.some.injEq, Prod.mk.injEq] at h
      obtain ⟨-, rfl⟩ := h
      simp only [List.length_cons]
      omega
    · exact absurd h (by simp)

/-- A stand-in for `x509.ParseCertificate`: the bodies `1`, `2` and `3` parse to the
certificates 1, 2 and 3, every other body is rejected. -/
def stubParse : Bytes → Except Error Nat
  | [49] => .ok 1
  | [50] => .ok 2
  | [51] => .ok 3
  | _ => .error "x509: malformed certificate"

/-- A fake cluster whose only object is the ConfigMap `openshift-config/user-ca-bundle`
with the given data. -/
def stubKube (data : List (String × String)) : KubeClient where
  getConfigMap := fun ns name =>
    if ns = "openshift-config" ∧ name = "user-ca-bundle" then .ok ⟨data⟩
    else .error "configmaps not found"

/-- A fake cluster without any object. -/
def emptyKube : KubeClient where
  getConfigMap := fun _ _ => .error "configmaps not found"

/-- Collaborators for test runs: no environment variable is set, both loggers can be
built (production is logger 0, development is logger 1). -/
def stubSys : Collaborators Nat Nat where
  lookupEnv := fun _ => none
  pem := stubPem
  parseCertificate := stubParse
  newProduction := .ok 0
  newDevelopment := .ok 1

/-- The same collaborators with two environment variables set, the user and the
endpoint, and the other two unset. -/
def envSys : Collaborators Nat Nat where
  lookupEnv := fun key =>
    if key = "NUTANIX_PRISM_CENTRAL_USER" then some "admin"
    else if key = "NUTANIX_PRISM_CENTRAL_ENDPOINT" then some "pc.example"
    else none
  pem := stubPem
  parseCertificate := stubParse
  newProduction := .ok 0
  newDevelopment := .ok 1

/-! ## Unfolding lemmas -/

theorem decodeLoop_eq {Cert : Type} (d : PemDecoder) (p : Bytes → Except Error Cert)
    (data : Bytes) (certs : List Cert) :
    decodeLoop d p data certs =
      match d.decode data with
      | none => certs
      | some (block, rest) =>
        if block.Typ ≠ "CERTIFICATE" then decodeLoop d p rest certs
        else
          match p block.Bytes with
          | .error _ => certs
          | .ok cert => decodeLoop d p rest (certs ++ [cert]) := by
  rw [decodeLoop]
  split <;> simp_all

theorem pemStream_eq (d : PemDecoder) (data : Bytes) :
    pemStream d data =
      match d.decode data with
      | none => []
      | some (block, rest) => block :: pemStream d rest := by
  rw [pemStream]
  split <;> simp_all

/-- The loop computes, on top of the certificates it starts with, the certificates of
the PEM stream up to the first malformed `CERTIFICATE` block. -/
theorem decodeLoop_eq_stream {Cert : Type} (d : PemDecoder) (p : Bytes → Except Error Cert) :
    ∀ (n : Nat) (data : Bytes) (certs : List Cert), data.length ≤ n →
      decodeLoop d p data certs = certs ++ certificatesBeforeFailure p (pemStream d data) := by
  intro n
  induction n with
  | zero =>
    intro data certs hlen
    rw [decodeLoop_eq, pemStream_eq]
    cases hd : d.decode data with
    | none => simp [certificatesBeforeFailure]
    | some br =>
      obtain ⟨b, r⟩ := br
      have := d.rest_lt _ _ _ hd
      omega
  | succ n ih =>
    intro data certs hlen
    rw [decodeLoop_eq, pemStream_eq]
    cases hd : d.decode data with
    | none => simp [certificatesBeforeFailure]
    | some br =>
      obtain ⟨b, r⟩ := br
      have hr : r.length ≤ n := by
        have := d.rest_lt _ _ _ hd
        omega
      by_cases hT : b.Typ = "CERTIFICATE"
      · cases hp : p b.Bytes with
        | error e => simp [certificatesBeforeFailure, hT, hp]
        | ok c => simp [certificatesBeforeFailure, hT, hp, ih r (certs ++ [c]) hr]
      · simp [certificatesBeforeFailure, hT, ih r certs hr]

theorem decodeLoop_stream {Cert : Type} (d : PemDecoder) (p : Bytes → Except Error Cert)
    (data : Bytes) :
    decodeLoop d p data [] = certificatesBeforeFailure p (pemStream d data) := by
  simpa using decodeLoop_eq_stream d p data.length data [] (Nat.le_refl _)

/-- On a block list whose `CERTIFICATE` blocks all parse, nothing is cut off. -/
theorem certificatesBeforeFailure_valid {Cert : Type} (p : Bytes → Except Error Cert)
    (blocks : List PemBlock)
    (h : ∀ b ∈ blocks, b.Typ = "CERTIFICATE" → ∃ c, p b.Bytes = .ok c) :
    certificatesBeforeFailure p blocks = parsedCertificates p blocks := by
  induction blocks with
  | nil => simp [certificatesBeforeFailure, parsedCertificates]
  | cons b bs ih =>
    have ih := ih (fun x hx => h x (List.mem_cons_of_mem _ hx))
    by_cases hT : b.Typ = "CERTIFICATE"
    · obtain ⟨c, hc⟩ := h b (List.mem_cons_self _ _) hT
      simp only [parsedCertificates] at ih
      simp [certificatesBeforeFailure, parsedCertificates, PemBlock.isCertificate, hT, hc, ih,
        Except.toOption]
    · simp only [parsedCertificates] at ih
      simp [certificatesBeforeFailure, parsedCertificates, PemBlock.isCertificate, hT, ih]

/-- A malformed `CERTIFICATE` block ends the collection: what follows it is not read. -/
theorem certificatesBeforeFailure_append {Cert : Type} (p : Bytes → Except Error Cert)
    (pre post : List PemBlock) (bad : PemBlock)
    (hpre : ∀ b ∈ pre, b.Typ = "CERTIFICATE" → ∃ c, p b.Bytes = .ok c)
    (hT : bad.Typ = "CERTIFICATE") (hbad : ∃ e, p bad.Bytes = .error e) :
    certificatesBeforeFailure p (pre ++ bad :: post) = parsedCertificates p pre := by
  induction pre with
  | nil =>
    obtain ⟨e, he⟩ := hbad
    simp [certificatesBeforeFailure, parsedCertificates, hT, he]
  | cons b bs ih =>
    have ih := ih (fun x hx => hpre x (List.mem_cons_of_mem _ hx))
    by_cases hb : b.Typ = "CERTIFICATE"
    · obtain ⟨c, hc⟩ := hpre b (List.mem_cons_self _ _) hb
      simp only [parsedCertificates] at ih
      simp [certificatesBeforeFailure, parsedCertificates, PemBlock.isCertificate, hb, hc, ih,
        Except.toOption]
    · simp only [parsedCertificates] at ih
      simp [certificatesBeforeFailure, parsedCertificates, PemBlock.isCertificate, hb, ih]

/-- On a block list whose `CERTIFICATE` blocks all parse, the parsed certificates
correspond one to one, in order, to the `CERTIFICATE` blocks. -/
theorem parsedCertificates_forall2 {Cert : Type} (p : Bytes → Except Error Cert)
    (blocks : List PemBlock)
    (h : ∀ b ∈ blocks, b.Typ = "CERTIFICATE" → ∃ c, p b.Bytes = .ok c) :
    List.Forall₂ (fun b c => p b.Bytes = .ok c)
      (blocks.filter PemBlock.isCertificate) (parsedCertificates p blocks) := by
  induction blocks with
  | nil => simp [parsedCertificates]
  | cons b bs ih =>
    have ih := ih (fun x hx => h x (List.mem_cons_of_mem _ hx))
    by_cases hT : b.Typ = "CERTIFICATE"
    · obtain ⟨c, hc⟩ := h b (List.mem_cons_self _ _) hT
      simp only [parsedCertificates] at ih
      simp [parsedCertificates, PemBlock.isCertificate, hT, hc, Except.toOption]
      exact ih
    · simp only [parsedCertificates] at ih
      simp [parsedCertificates, PemBlock.isCertificate, hT]
      exact ih

/-! ## Runs of the test doubles -/

theorem pemStream_stub_cert (b : UInt8) (rest : Bytes) :
    pemStream stubPem (67 :: b :: rest) = ⟨"CERTIFICATE", [b]⟩ :: pemStream stubPem rest := by
  rw [pemStream_eq]
  rfl

theorem pemStream_stub_key (b : UInt8) (rest : Bytes) :
    pemStream stubPem (75 :: b :: rest) = ⟨"PUBLIC KEY", [b]⟩ :: pemStream stubPem rest := by
  rw [pemStream_eq]
  rfl

theorem pemStream_stub_end (data : Bytes) (h : stubDecode data = none) :
    pemStream stubPem data = [] := by
  rw [pemStream_eq]
  show (match stubDecode data with
    | none => []
    | some (block, rest) => block :: pemStream stubPem rest) = []
  rw [h]

theorem stream_valid_mixed :
    pemStream stubPem (stringBytes "C1K2C3~~") =
      [⟨"CERTIFICATE", [49]⟩, ⟨"PUBLIC KEY", [50]⟩, ⟨"CERTIFICATE", [51]⟩] := by
  show pemStream stubPem [67, 49, 75, 50, 67, 51, 126, 126] = _
  rw [pemStream_stub_cert, pemStream_stub_key, pemStream_stub_cert, pemStream_stub_end [126, 126] rfl]

theorem stream_corrupt_middle :
    pemStream stubPem (stringBytes "C1C!C2") =
      [⟨"CERTIFICATE", [49]⟩, ⟨"CERTIFICATE", [33]⟩, ⟨"CERTIFICATE", [50]⟩] := by
  show pemStream stubPem [67, 49, 67, 33, 67, 50] = _
  rw [pemStream_stub_cert, pemStream_stub_cert, pemStream_stub_cert, pemStream_stub_end [] rfl]

theorem stream_corrupt_tail :
    pemStream stubPem (stringBytes "C1C!") =
      [⟨"CERTIFICATE", [49]⟩, ⟨"CERTIFICATE", [33]⟩] := by
  show pemStream stubPem [67, 49, 67, 33] = _
  rw [pemStream_stub_cert, pemStream_stub_cert, pemStream_stub_end [] rfl]

theorem stream_duplicate :
    pemStream stubPem (stringBytes "C1C1") =
      [⟨"CERTIFICATE", [49]⟩, ⟨"CERTIFICATE", [49]⟩] := by
  show pemStream stubPem [67, 49, 67, 49] = _
  rw [pemStream_stub_cert, pemStream_stub_cert, pemStream_stub_end [] rfl]

theorem stream_keys_only :
    pemStream stubPem (stringBytes "K1K2") =
      [⟨"PUBLIC KEY", [49]⟩, ⟨"PUBLIC KEY", [50]⟩] := by
  show pemStream stubPem [75, 49, 75, 50] = _
  rw [pemStream_stub_key, pemStream_stub_key, pemStream_stub_end [] rfl]

/-- The loader on the fake cluster, in terms of the PEM stream of the bundle. -/
theorem getCACertificates_stub (cacert : String) :
    getCACertificates stubSys (some (stubKube [("ca-bundle.crt", cacert)])) =
      .ret (if (certificatesBeforeFailure stubParse
              (pemStream stubPem (stringBytes cacert))).length = 0 then none
            else some (certificatesBeforeFailure stubParse
              (pemStream stubPem (stringBytes cacert)))) := by
  simp only [getCACertificates, stubKube, userCAConfigMapNamespace, userCAConfigMap,
    userCABundleKey, and_self, if_true, List.lookup, beq_self_eq_true, stubSys,
    decodeLoop_stream]
  split <;> rfl

theorem loader_valid_mixed :
    getCACertificates stubSys (some (stubKube [("ca-bundle.crt", "C1K2C3~~")])) =
      .ret (some [1, 3]) := by
  rw [getCACertificates_stub, stream_valid_mixed]
  rfl

theorem loader_corrupt_middle :
    getCACertificates stubSys (some (stubKube [("ca-bundle.crt", "C1C!C2")])) =
      .ret (some [1]) := by
  rw [getCACertificates_stub, stream_corrupt_middle]
  rfl

theorem loader_corrupt_tail :
    getCACertificates stubSys (some (stubKube [("ca-bundle.crt", "C1C!")])) =
      .ret (some [1]) := by
  rw [getCACertificates_stub, stream_corrupt_tail]
  rfl

theorem loader_duplicate :
    getCACertificates stubSys (some (stubKube [("ca-bundle.crt", "C1C1")])) =
      .ret (some [1, 1]) := by
  rw [getCACertificates_stub, stream_duplicate]
  rfl

theorem loader_keys_only :
    getCACertificates stubSys (some (stubKube [("ca-bundle.crt", "K1K2")])) = .ret none := by
  rw [getCACertificates_stub, stream_keys_only]
  rfl

/-! ## The trust-anchor loader: general facts -/

/-- The loader on a cluster that holds the bundle, in terms of the PEM stream. -/
theorem getCACertificates_bundle {Z Cert : Type} (sys : Collaborators Z Cert) (kc : KubeClient)
    (cm : ConfigMap) (cacert : String)
    (hget : kc.getConfigMap "openshift-config" "user-ca-bundle" = .ok cm)
    (hkey : cm.Data.lookup "ca-bundle.crt" = some cacert) :
    getCACertificates sys (some kc) =
      .ret (if (certificatesBeforeFailure sys.parseCertificate
              (pemStream sys.pem (stringBytes cacert))).length = 0 then none
            else some (certificatesBeforeFailure sys.parseCertificate
              (pemStream sys.pem (stringBytes cacert)))) := by
  simp only [getCACertificates, userCAConfigMapNamespace, userCAConfigMap, userCABundleKey,
    hget, hkey, decodeLoop_stream]
  split <;> rfl

/-- Decoding the empty input yields no block. -/
theorem decode_nil (d : PemDecoder) : d.decode [] = none := by
  cases h : d.decode [] with
  | none => rfl
  | some br =>
    obtain ⟨b, r⟩ := br
    have := d.rest_lt _ _ _ h
    simp at this

/-- A stream with a malformed `CERTIFICATE` block splits at the first such block. -/
theorem exists_first_malformed {Cert : Type} (p : Bytes → Except Error Cert)
    (blocks : List PemBlock)
    (h : ∃ b ∈ blocks, b.Typ = "CERTIFICATE" ∧ ∃ e, p b.Bytes = .error e) :
    ∃ pre bad post, blocks = pre ++ bad :: post ∧
      (∀ b ∈ pre, b.Typ = "CERTIFICATE" → ∃ c, p b.Bytes = .ok c) ∧
      bad.Typ = "CERTIFICATE" ∧ ∃ e, p bad.Bytes = .error e := by
  induction blocks with
  | nil => simp at h
  | cons b bs ih =>
    by_cases hb : b.Typ = "CERTIFICATE" ∧ ∃ e, p b.Bytes = .error e
    · exact ⟨[], b, bs, rfl, by simp, hb.1, hb.2⟩
    · obtain ⟨x, hx, hxT, hxe⟩ := h
      have hxbs : x ∈ bs := by
        rcases List.mem_cons.mp hx with rfl | hmem
        · exact absurd ⟨hxT, hxe⟩ hb
        · exact hmem
      obtain ⟨pre, bad, post, hsplit, hpre, hT, hbad⟩ := ih ⟨x, hxbs, hxT, hxe⟩
      refine ⟨b :: pre, bad, post, by simp [hsplit], ?_, hT, hbad⟩
      intro y hy hyT
      rcases List.mem_cons.mp hy with rfl | hmem
      · cases hp : p y.Bytes with
        | ok c => exact ⟨c, rfl⟩
        | error e => exact absurd ⟨hyT, e, hp⟩ hb
      · exact hpre y hmem hyT

theorem parsedCertificates_length {Cert : Type} (p : Bytes → Except Error Cert)
    (blocks : List PemBlock)
    (h : ∀ b ∈ blocks, b.Typ = "CERTIFICATE" → ∃ c, p b.Bytes = .ok c) :
    (parsedCertificates p blocks).length = (blocks.filter PemBlock.isCertificate).length :=
  (List.Forall₂.length_eq (parsedCertificates_forall2 p blocks h)).symm

/-! ## Claims about the trust-anchor loader -/

/-- C1: when every `CERTIFICATE`-typed block of the bundle parses, `getCACertificates`
returns the parses of the `CERTIFICATE`-typed blocks of the PEM stream, one per block
and in stream order; blocks of other types and the undecodable remainder contribute
nothing; with N such blocks, N at least 1, the result is a sequence of length N. -/
theorem getCACertificates_valid_bundle {Z Cert : Type} (sys : Collaborators Z Cert)
    (kc : KubeClient) (cm : ConfigMap) (cacert : String)
    (hget : kc.getConfigMap "openshift-config" "user-ca-bundle" = .ok cm)
    (hkey : cm.Data.lookup "ca-bundle.crt" = some cacert)
    (hvalid : ∀ b ∈ pemStream sys.pem (stringBytes cacert), b.Typ = "CERTIFICATE" →
      ∃ c, sys.parseCertificate b.Bytes = .ok c) :
    List.Forall₂ (fun b c => sys.parseCertificate b.Bytes = .ok c)
        ((pemStream sys.pem (stringBytes cacert)).filter PemBlock.isCertificate)
        (parsedCertificates sys.parseCertificate (pemStream sys.pem (stringBytes cacert))) ∧
      (parsedCertificates sys.parseCertificate (pemStream sys.pem (stringBytes cacert))).length
        = ((pemStream sys.pem (stringBytes cacert)).filter PemBlock.isCertificate).length ∧
      getCACertificates sys (some kc) =
        .ret (if (parsedCertificates sys.parseCertificate
                (pemStream sys.pem (stringBytes cacert))).length = 0 then none
              else some (parsedCertificates sys.parseCertificate
                (pemStream sys.pem (stringBytes cacert)))) ∧
      (1 ≤ ((pemStream sys.pem (stringBytes cacert)).filter PemBlock.isCertificate).length →
        getCACertificates sys (some kc) =
          .ret (some (parsedCertificates sys.parseCertificate
            (pemStream sys.pem (stringBytes cacert))))) := by
  have hlen := parsedCertificates_length sys.parseCertificate _ hvalid
  have hres := getCACertificates_bundle sys kc cm cacert hget hkey
  rw [certificatesBeforeFailure_valid _ _ hvalid] at hres
  refine ⟨parsedCertificates_forall2 _ _ hvalid, hlen, hres, ?_⟩
  intro hN
  rw [hres, if_neg (by omega)]

theorem getCACertificates_valid_bundle_witness :
    getCACertificates stubSys (some (stubKube [("ca-bundle.crt", "C1K2C3~~")])) =
        .ret (some (parsedCertificates stubParse (pemStream stubPem (stringBytes "C1K2C3~~")))) ∧
      parsedCertificates stubParse (pemStream stubPem (stringBytes "C1K2C3~~")) = [1, 3] :=
  ⟨(getCACertificates_valid_bundle stubSys (stubKube [("ca-bundle.crt", "C1K2C3~~")])
      ⟨[("ca-bundle.crt", "C1K2C3~~")]⟩ "C1K2C3~~" rfl rfl
      (by
        show ∀ b ∈ pemStream stubPem (stringBytes "C1K2C3~~"), b.Typ = "CERTIFICATE" →
          ∃ c, stubParse b.Bytes = .ok c
        rw [stream_valid_mixed]
        simp [stubParse])).2.2.2
      (by
        show 1 ≤ ((pemStream stubPem (stringBytes "C1K2C3~~")).filter
          PemBlock.isCertificate).length
        rw [stream_valid_mixed]
        decide),
    by rw [stream_valid_mixed]; rfl⟩

/-- C2 fails as stated: the bundle `C1C!C2` (a valid certificate, a malformed
`CERTIFICATE` block, a valid certificate) contains a malformed `CERTIFICATE` block, and
the loader returns the certificate accumulated before it instead of nothing. -/
theorem getCACertificates_keeps_accumulated :
    (∃ b ∈ pemStream stubPem (stringBytes "C1C!C2"),
        b.Typ = "CERTIFICATE" ∧ ∃ e, stubParse b.Bytes = .error e) ∧
      getCACertificates stubSys (some (stubKube [("ca-bundle.crt", "C1C!C2")])) =
        .ret (some [1]) ∧
      getCACertificates stubSys (some (stubKube [("ca-bundle.crt", "C1C!C2")])) ≠
        .ret none := by
  refine ⟨?_, loader_corrupt_middle, ?_⟩
  · rw [stream_corrupt_middle]
    exact ⟨⟨"CERTIFICATE", [33]⟩, by simp, rfl, _, rfl⟩
  · rw [loader_corrupt_middle]
    simp

/-- C2, amended: a bundle that contains a malformed `CERTIFICATE` block splits at the
first such block, and `getCACertificates` returns the parses of the `CERTIFICATE` blocks
before it, one per block and in order; it returns nothing only when no `CERTIFICATE`
block comes before the malformed one. -/
theorem getCACertificates_corrupt_bundle {Z Cert : Type} (sys : Collaborators Z Cert)
    (kc : KubeClient) (cm : ConfigMap) (cacert : String)
    (hget : kc.getConfigMap "openshift-config" "user-ca-bundle" = .ok cm)
    (hkey : cm.Data.lookup "ca-bundle.crt" = some cacert)
    (hcorrupt : ∃ b ∈ pemStream sys.pem (stringBytes cacert),
      b.Typ = "CERTIFICATE" ∧ ∃ e, sys.parseCertificate b.Bytes = .error e) :
    ∃ pre bad post, pemStream sys.pem (stringBytes cacert) = pre ++ bad :: post ∧
      (∀ b ∈ pre, b.Typ = "CERTIFICATE" → ∃ c, sys.parseCertificate b.Bytes = .ok c) ∧
      bad.Typ = "CERTIFICATE" ∧ (∃ e, sys.parseCertificate bad.Bytes = .error e) ∧
      List.Forall₂ (fun b c => sys.parseCertificate b.Bytes = .ok c)
        (pre.filter PemBlock.isCertificate) (parsedCertificates sys.parseCertificate pre) ∧
      ((∃ b ∈ pre, b.Typ = "CERTIFICATE") →
        getCACertificates sys (some kc) =
          .ret (some (parsedCertificates sys.parseCertificate pre))) ∧
      ((∀ b ∈ pre, b.Typ ≠ "CERTIFICATE") → getCACertificates sys (some kc) = .ret none) := by
  obtain ⟨pre, bad, post, hsplit, hpre, hT, hbad⟩ :=
    exists_first_malformed sys.parseCertificate _ hcorrupt
  have hres := getCACertificates_bundle sys kc cm cacert hget hkey
  rw [hsplit, certificatesBeforeFailure_append _ pre post bad hpre hT hbad] at hres
  have hlen := parsedCertificates_length sys.parseCertificate pre hpre
  refine ⟨pre, bad, post, hsplit, hpre, hT, hbad, parsedCertificates_forall2 _ _ hpre, ?_, ?_⟩
  · rintro ⟨b, hb, hbT⟩
    have hmem : b ∈ pre.filter PemBlock.isCertificate := by
      simp [List.mem_filter, PemBlock.isCertificate, hb, hbT]
    have hpos : 0 < (pre.filter PemBlock.isCertificate).length := List.length_pos_of_mem hmem
    rw [hres, if_neg (by omega)]
  · intro hnone
    have hnil : pre.filter PemBlock.isCertificate = [] := by
      rw [List.filter_eq_nil_iff]
      intro b hb
      simp [PemBlock.isCertificate, hnone b hb]
    rw [hres, if_pos (by rw [hlen, hnil]; rfl)]

theorem getCACertificates_corrupt_bundle_witness :
    (∃ pre bad post, pemStream stubPem (stringBytes "C1C!") = pre ++ bad :: post ∧
      (∀ b ∈ pre, b.Typ = "CERTIFICATE" → ∃ c, stubParse b.Bytes = .ok c) ∧
      bad.Typ = "CERTIFICATE" ∧ (∃ e, stubParse bad.Bytes = .error e) ∧
      List.Forall₂ (fun b c => stubParse b.Bytes = .ok c)
        (pre.filter PemBlock.isCertificate) (parsedCertificates stubParse pre) ∧
      ((∃ b ∈ pre, b.Typ = "CERTIFICATE") →
        getCACertificates stubSys (some (stubKube [("ca-bundle.crt", "C1C!")])) =
          .ret (some (parsedCertificates stubParse pre))) ∧
      ((∀ b ∈ pre, b.Typ ≠ "CERTIFICATE") →
        getCACertificates stubSys (some (stubKube [("ca-bundle.crt", "C1C!")])) = .ret none)) ∧
      getCACertificates stubSys (some (stubKube [("ca-bundle.crt", "C1C!")])) =
        .ret (some [1]) :=
  ⟨getCACertificates_corrupt_bundle stubSys (stubKube [("ca-bundle.crt", "C1C!")])
    ⟨[("ca-bundle.crt", "C1C!")]⟩ "C1C!" rfl rfl
    (by
      show ∃ b ∈ pemStream stubPem (stringBytes "C1C!"),
        b.Typ = "CERTIFICATE" ∧ ∃ e, stubParse b.Bytes = .error e
      rw [stream_corrupt_tail]
      exact ⟨⟨"CERTIFICATE", [33]⟩, by simp, rfl, _, rfl⟩),
   loader_corrupt_tail⟩

/-- C9: when the PEM stream of the input is `pre ++ bad :: post`, with `bad` the first
`CERTIFICATE`-typed block that fails to parse, the loop appends one certificate per
`CERTIFICATE` block of `pre`, in order, and nothing else: the result is the same for
every input whose stream agrees up to `bad`, whatever blocks follow. -/
theorem decodeLoop_stops_at_first_malformed {Cert : Type} (d : PemDecoder)
    (p : Bytes → Except Error Cert) (data : Bytes) (certs : List Cert)
    (pre post : List PemBlock) (bad : PemBlock)
    (hstream : pemStream d data = pre ++ bad :: post)
    (hpre : ∀ b ∈ pre, b.Typ = "CERTIFICATE" → ∃ c, p b.Bytes = .ok c)
    (hT : bad.Typ = "CERTIFICATE") (hbad : ∃ e, p bad.Bytes = .error e) :
    decodeLoop d p data certs = certs ++ parsedCertificates p pre ∧
      List.Forall₂ (fun b c => p b.Bytes = .ok c)
        (pre.filter PemBlock.isCertificate) (parsedCertificates p pre) ∧
      ∀ (other : Bytes) (post2 : List PemBlock), pemStream d other = pre ++ bad :: post2 →
        decodeLoop d p other certs = decodeLoop d p data certs := by
  have key : ∀ (x : Bytes) (q : List PemBlock), pemStream d x = pre ++ bad :: q →
      decodeLoop d p x certs = certs ++ parsedCertificates p pre := by
    intro x q hx
    rw [decodeLoop_eq_stream d p x.length x certs (Nat.le_refl _), hx,
      certificatesBeforeFailure_append p pre q bad hpre hT hbad]
  refine ⟨key data post hstream, parsedCertificates_forall2 p pre hpre, ?_⟩
  intro other post2 hother
  rw [key other post2 hother, key data post hstream]

theorem decodeLoop_stops_at_first_malformed_witness :
    decodeLoop stubPem stubParse (stringBytes "C1C!C2") [] =
        [] ++ parsedCertificates stubParse [⟨"CERTIFICATE", [49]⟩] ∧
      parsedCertificates stubParse [⟨"CERTIFICATE", [49]⟩] = [1] ∧
      stubParse [50] = .ok 2 :=
  ⟨(decodeLoop_stops_at_first_malformed stubPem stubParse (stringBytes "C1C!C2") []
      [⟨"CERTIFICATE", [49]⟩] [⟨"CERTIFICATE", [50]⟩] ⟨"CERTIFICATE", [33]⟩
      stream_corrupt_middle (by simp [stubParse]) rfl ⟨_, rfl⟩).1,
    rfl, rfl⟩

/-- C3: `getCACertificates` returns nothing when the fetch of ConfigMap
`user-ca-bundle` in namespace `openshift-config` fails, when the key `ca-bundle.crt` is
missing, when its value is the empty string, and when the loop collects no certificate;
whatever it returns is nothing or a sequence of length at least 1, never an empty
sequence; and with a cluster handle it always returns. -/
theorem getCACertificates_absent {Z Cert : Type} (sys : Collaborators Z Cert)
    (kc : KubeClient) :
    (∀ e, kc.getConfigMap "openshift-config" "user-ca-bundle" = .error e →
        getCACertificates sys (some kc) = .ret none) ∧
      (∀ cm, kc.getConfigMap "openshift-config" "user-ca-bundle" = .ok cm →
        cm.Data.lookup "ca-bundle.crt" = none → getCACertificates sys (some kc) = .ret none) ∧
      (∀ cm, kc.getConfigMap "openshift-config" "user-ca-bundle" = .ok cm →
        cm.Data.lookup "ca-bundle.crt" = some "" →
        getCACertificates sys (some kc) = .ret none) ∧
      (∀ cm cacert, kc.getConfigMap "openshift-config" "user-ca-bundle" = .ok cm →
        cm.Data.lookup "ca-bundle.crt" = some cacert →
        decodeLoop sys.pem sys.parseCertificate (stringBytes cacert) [] = [] →
        getCACertificates sys (some kc) = .ret none) ∧
      (∀ kubeClient r, getCACertificates sys kubeClient = .ret r →
        r ≠ some [] ∧ (r = none ∨ ∃ certs, r = some certs ∧ 1 ≤ certs.length)) ∧
      (∃ r, getCACertificates sys (some kc) = .ret r) := by
  refine ⟨?_, ?_, ?_, ?_, ?_, ?_⟩
  · intro e he
    simp [getCACertificates, userCAConfigMapNamespace, userCAConfigMap, he]
  · intro cm hget hkey
    simp [getCACertificates, userCAConfigMapNamespace, userCAConfigMap, userCABundleKey,
      hget, hkey]
  · intro cm hget hkey
    have hempty : stringBytes "" = [] := rfl
    simp [getCACertificates, userCAConfigMapNamespace, userCAConfigMap, userCABundleKey,
      hget, hkey, hempty, decodeLoop_eq, decode_nil]
  · intro cm cacert hget hkey hloop
    simp [getCACertificates, userCAConfigMapNamespace, userCAConfigMap, userCABundleKey,
      hget, hkey, hloop]
  · intro kubeClient r hr
    unfold getCACertificates at hr
    split at hr
    · exact absurd hr (by simp)
    · split at hr
      · simp only [Go.ret.injEq] at hr
        subst hr
        simp
      · split at hr
        · simp only [Go.ret.injEq] at hr
          subst hr
          simp
        · simp only at hr
          split at hr
          · simp only [Go.ret.injEq] at hr
            subst hr
            simp
          · rename_i hlen
            simp only [Go.ret.injEq] at hr
            subst hr
            refine ⟨?_, Or.inr ⟨_, rfl, ?_⟩⟩
            · intro h
              simp only [Option.some.injEq] at h
              rw [h] at hlen
              exact hlen rfl
            · omega
  · unfold getCACertificates
    simp only
    split
    · exact ⟨_, rfl⟩
    · split
      · exact ⟨_, rfl⟩
      · split
        · exact ⟨_, rfl⟩
        · exact ⟨_, rfl⟩

theorem getCACertificates_absent_witness :
    getCACertificates stubSys (some emptyKube) = .ret none ∧
      getCACertificates stubSys (some (stubKube [("other-key", "C1")])) = .ret none ∧
      getCACertificates stubSys (some (stubKube [("ca-bundle.crt", "")])) = .ret none ∧
      getCACertificates stubSys (some (stubKube [("ca-bundle.crt", "K1K2")])) = .ret none :=
  ⟨(getCACertificates_absent stubSys emptyKube).1 _ rfl,
    (getCACertificates_absent stubSys (stubKube [("other-key", "C1")])).2.1 _ rfl rfl,
    (getCACertificates_absent stubSys (stubKube [("ca-bundle.crt", "")])).2.2.1 _ rfl rfl,
    (getCACertificates_absent stubSys (stubKube [("ca-bundle.crt", "K1K2")])).2.2.2.1 _ _ rfl rfl
      (by
        show decodeLoop stubPem stubParse (stringBytes "K1K2") [] = []
        rw [decodeLoop_stream, stream_keys_only]
        rfl)⟩

/-- C4, the code at a nil handle: `getCACertificates` panics on a nil `kubeClient`
(the method call `kubeClient.CoreV1()` on a nil interface value), so `Client` with the
`kubeClient` field unset never reaches the remote-client constructor: it fails at the
logger stage or it panics. -/
theorem getCACertificates_nil_kubeClient {Z Cert H : Type} (sys : Collaborators Z Cert)
    (newV3Client : Credentials → List (ClientOption Z Cert) → Except Error H)
    (credentials : Option Credentials) (debug : Bool) :
    getCACertificates sys none = .panic ∧
      (Client sys newV3Client ⟨credentials, debug, none⟩ = .panic ∨
        ∃ err, Client sys newV3Client ⟨credentials, debug, none⟩ = .ret (.error err)) ∧
      Client stubSys (fun _ _ => (.ok 0 : Except Error Nat)) ⟨credentials, debug, none⟩ =
        .panic := by
  refine ⟨rfl, ?_, ?_⟩
  · simp only [Client, getCACertificates]
    cases hprod : sys.newProduction with
    | error e => exact Or.inr ⟨e, rfl⟩
    | ok z =>
      cases debug with
      | false => exact Or.inl rfl
      | true =>
        cases hdev : sys.newDevelopment with
        | error e => exact Or.inr ⟨e, by simp⟩
        | ok z2 => exact Or.inl (by simp)
  · cases debug <;> rfl

/-! ## The client factory: general facts -/

/-- The credentials after the fallback to the environment and the URL derivation. -/
theorem constructorCall_credentials {Z Cert : Type} (sys : Collaborators Z Cert)
    (options : ClientOptions) (creds : Credentials) (opts : List (ClientOption Z Cert))
    (h : constructorCall sys options = .ret (.ok (creds, opts))) :
    creds =
      (if (match options.Credentials with
            | some c => c
            | none => (⟨"", getEnvVar sys.lookupEnv NutanixUserKey,
                getEnvVar sys.lookupEnv NutanixPasswordKey,
                getEnvVar sys.lookupEnv NutanixEndpointKey,
                getEnvVar sys.lookupEnv NutanixPortKey⟩ : Credentials)).URL.length = 0 then
        { (match options.Credentials with
            | some c => c
            | none => (⟨"", getEnvVar sys.lookupEnv NutanixUserKey,
                getEnvVar sys.lookupEnv NutanixPasswordKey,
                getEnvVar sys.lookupEnv NutanixEndpointKey,
                getEnvVar sys.lookupEnv NutanixPortKey⟩ : Credentials)) with
          URL := (match options.Credentials with
            | some c => c
            | none => (⟨"", getEnvVar sys.lookupEnv NutanixUserKey,
                getEnvVar sys.lookupEnv NutanixPasswordKey,
                getEnvVar sys.lookupEnv NutanixEndpointKey,
                getEnvVar sys.lookupEnv NutanixPortKey⟩ : Credentials)).Endpoint ++ ":" ++
            (match options.Credentials with
            | some c => c
            | none => (⟨"", getEnvVar sys.lookupEnv NutanixUserKey,
                getEnvVar sys.lookupEnv NutanixPasswordKey,
                getEnvVar sys.lookupEnv NutanixEndpointKey,
                getEnvVar sys.lookupEnv NutanixPortKey⟩ : Credentials)).Port }
      else
        (match options.Credentials with
            | some c => c
            | none => (⟨"", getEnvVar sys.lookupEnv NutanixUserKey,
                getEnvVar sys.lookupEnv NutanixPasswordKey,
                getEnvVar sys.lookupEnv NutanixEndpointKey,
                getEnvVar sys.lookupEnv NutanixPortKey⟩ : Credentials))) := by
  simp only [constructorCall, Client] at h
  split at h
  · exact absurd h (by simp)
  · split at h
    · exact absurd h (by simp)
    · split at h
      · exact absurd h (by simp)
      · simp only [Go.ret.injEq, Except.ok.injEq, Prod.mk.injEq] at h
        exact h.1.symm

theorem string_length_eq_zero_iff (s : String) : s.length = 0 ↔ s = "" := by
  constructor
  · intro h
    cases s with
    | mk d =>
      have hd : d = [] := List.length_eq_zero.mp h
      subst hd
      rfl
  · intro h
    subst h
    rfl

theorem getEnvVar_eq (lookupEnv : String → Option String) (key : String) :
    getEnvVar lookupEnv key = (lookupEnv key).getD "" := by
  unfold getEnvVar
  cases lookupEnv key <;> rfl

/-- `Client` hands the constructor the arguments of `constructorCall` and returns what
the constructor returns. -/
theorem Client_eq_constructorCall {Z Cert H : Type} (sys : Collaborators Z Cert)
    (newV3Client : Credentials → List (ClientOption Z Cert) → Except Error H)
    (options : ClientOptions) :
    Client sys newV3Client options =
      match constructorCall sys options with
      | .panic => .panic
      | .ret (.error err) => .ret (.error err)
      | .ret (.ok (creds, opts)) => .ret (newV3Client creds opts) := by
  simp only [constructorCall, Client]
  split
  · rfl
  · split
    · rfl
    · split
      · rfl
      · simp only
        split <;> simp_all

/-- The options of the constructor call: the logger that was selected, then the loader's
certificates. -/
theorem constructorCall_options {Z Cert : Type} (sys : Collaborators Z Cert)
    (options : ClientOptions) (creds : Credentials) (opts : List (ClientOption Z Cert))
    (h : constructorCall sys options = .ret (.ok (creds, opts))) :
    ∃ z0 z r, sys.newProduction = .ok z0 ∧
      (if options.Debug then sys.newDevelopment else .ok z0) = .ok z ∧
      getCACertificates sys options.kubeClient = .ret r ∧
      opts = .WithLogger z :: (r.getD []).map .WithCertificate := by
  simp only [constructorCall, Client] at h
  split at h
  · exact absurd h (by simp)
  · rename_i z0 hprod
    split at h
    · exact absurd h (by simp)
    · rename_i z hsel
      split at h
      · exact absurd h (by simp)
      · rename_i r hr
        simp only [Go.ret.injEq, Except.ok.injEq, Prod.mk.injEq] at h
        refine ⟨z0, z, r, hprod, hsel, hr, ?_⟩
        rw [← h.2]
        cases r <;> simp

/-- The constructor call is made as soon as the loggers are built and the loader
returns. -/
theorem constructorCall_reached {Z Cert : Type} (sys : Collaborators Z Cert)
    (options : ClientOptions) (z0 z : Z) (r : Option (List Cert))
    (hprod : sys.newProduction = .ok z0)
    (hsel : (if options.Debug then sys.newDevelopment else .ok z0) = .ok z)
    (hr : getCACertificates sys options.kubeClient = .ret r) :
    ∃ creds, constructorCall sys options =
      .ret (.ok (creds, .WithLogger z :: (r.getD []).map .WithCertificate)) := by
  simp only [constructorCall, Client, hprod, hsel, hr]
  cases r <;> exact ⟨_, rfl⟩

/-- The factory fails before the constructor call exactly at the logger stage. -/
theorem constructorCall_error_iff {Z Cert : Type} (sys : Collaborators Z Cert)
    (options : ClientOptions) (err : Error) :
    constructorCall sys options = .ret (.error err) ↔
      sys.newProduction = .error err ∨
        (options.Debug = true ∧ (∃ z, sys.newProduction = .ok z) ∧
          sys.newDevelopment = .error err) := by
  simp only [constructorCall, Client]
  cases hprod : sys.newProduction with
  | error e => simp
  | ok z0 =>
    cases hdebug : options.Debug with
    | false =>
      simp only [Bool.false_eq_true, if_false, false_and, or_false]
      split <;> simp
    | true =>
      simp only [if_true, true_and]
      cases hdev : sys.newDevelopment with
      | error e => simp
      | ok z =>
        simp only
        split <;> simp

/-! ## Runs of the factory on the test doubles -/

theorem call_partial_environment :
    constructorCall envSys ⟨none, false, some emptyKube⟩ =
      .ret (.ok (⟨"pc.example:", "admin", "", "pc.example", ""⟩, [.WithLogger 0])) := by
  rfl

theorem call_corrupt_bundle :
    constructorCall stubSys ⟨none, false, some (stubKube [("ca-bundle.crt", "C1C!")])⟩ =
      .ret (.ok (⟨":", "", "", "", ""⟩, [.WithLogger 0, .WithCertificate 1])) := by
  simp only [constructorCall, Client, loader_corrupt_tail]
  rfl

theorem call_duplicate_bundle :
    constructorCall stubSys ⟨none, false, some (stubKube [("ca-bundle.crt", "C1C1")])⟩ =
      .ret (.ok (⟨":", "", "", "", ""⟩,
        [.WithLogger 0, .WithCertificate 1, .WithCertificate 1])) := by
  simp only [constructorCall, Client, loader_duplicate]
  rfl

/-! ## Claims about the client factory -/

/-- C5: the credentials that reach the constructor carry the caller's URL when that was
non-empty, and otherwise exactly `Endpoint ++ ":" ++ Port`, where `Endpoint` and `Port`
are the caller's own (or, with `Credentials` absent, the values of the endpoint and port
environment variables) and are passed on unchanged; in both cases the URL is
non-empty. -/
theorem Client_url {Z Cert : Type} (sys : Collaborators Z Cert) (options : ClientOptions)
    (creds : Credentials) (opts : List (ClientOption Z Cert))
    (h : constructorCall sys options = .ret (.ok (creds, opts))) :
    (∀ c, options.Credentials = some c → c.URL ≠ "" → creds.URL = c.URL) ∧
      ((∀ c, options.Credentials = some c → c.URL = "") →
        creds.URL = creds.Endpoint ++ ":" ++ creds.Port) ∧
      creds.URL ≠ "" ∧
      (∀ c, options.Credentials = some c → c.URL = "" →
        creds.URL = c.Endpoint ++ ":" ++ c.Port) ∧
      (∀ c, options.Credentials = some c →
        creds.Endpoint = c.Endpoint ∧ creds.Port = c.Port) ∧
      (options.Credentials = none →
        creds.URL = (sys.lookupEnv "NUTANIX_PRISM_CENTRAL_ENDPOINT").getD "" ++ ":" ++
          (sys.lookupEnv "NUTANIX_PRISM_CENTRAL_PORT").getD "" ∧
        creds.Endpoint = (sys.lookupEnv "NUTANIX_PRISM_CENTRAL_ENDPOINT").getD "" ∧
        creds.Port = (sys.lookupEnv "NUTANIX_PRISM_CENTRAL_PORT").getD "") := by
  simp only [constructorCall, Client] at h
  split at h
  · exact absurd h (by simp)
  split at h
  · exact absurd h (by simp)
  split at h
  · exact absurd h (by simp)
  simp only [Go.ret.injEq, Except.ok.injEq, Prod.mk.injEq] at h
  have hc := h.1.symm
  have hne : ∀ a b : String, a ++ ":" ++ b ≠ "" := by
    intro a b hab
    have hlen : (a ++ ":" ++ b).length = 0 := by rw [hab]; rfl
    simp only [String.length_append] at hlen
    have : (":" : String).length = 1 := rfl
    omega
  cases hcred : options.Credentials with
  | none =>
    rw [hcred] at hc
    simp only [String.length, List.length_nil, if_true] at hc
    subst hc
    refine ⟨fun c hc => (by cases hc), fun _ => rfl, hne _ _, fun c hc => (by cases hc),
      fun c hc => (by cases hc), fun _ => ?_⟩
    simp only [getEnvVar_eq, NutanixEndpointKey, NutanixPortKey, and_self]
  | some c0 =>
    rw [hcred] at hc
    simp only at hc
    by_cases hurl : c0.URL = ""
    · rw [if_pos ((string_length_eq_zero_iff _).mpr hurl)] at hc
      subst hc
      refine ⟨?_, fun _ => rfl, hne _ _, ?_, ?_, fun hn => (by cases hn)⟩
      · intro c hcc hcu
        cases hcc
        exact absurd hurl hcu
      · intro c hcc _
        cases hcc
        rfl
      · intro c hcc
        cases hcc
        exact ⟨rfl, rfl⟩
    · rw [if_neg (fun hl => hurl ((string_length_eq_zero_iff _).mp hl))] at hc
      subst hc
      refine ⟨?_, ?_, hurl, ?_, ?_, fun hn => (by cases hn)⟩
      · intro c hcc _
        cases hcc
        rfl
      · intro hall
        exact absurd (hall _ rfl) hurl
      · intro c hcc hcu
        cases hcc
        exact absurd hcu hurl
      · intro c hcc
        cases hcc
        exact ⟨rfl, rfl⟩

theorem Client_url_witness :
    constructorCall stubSys ⟨some ⟨"", "admin", "secret", "pc.example", "9440"⟩, false,
        some emptyKube⟩ =
        .ret (.ok (⟨"pc.example:9440", "admin", "secret", "pc.example", "9440"⟩,
          [.WithLogger 0])) ∧
      (⟨"pc.example:9440", "admin", "secret", "pc.example", "9440"⟩ : Credentials).URL =
        (⟨"", "admin", "secret", "pc.example", "9440"⟩ : Credentials).Endpoint ++ ":" ++
          (⟨"", "admin", "secret", "pc.example", "9440"⟩ : Credentials).Port ∧
      (⟨"pc.example:9440", "admin", "secret", "pc.example", "9440"⟩ : Credentials).URL ≠ "" ∧
      constructorCall stubSys
          ⟨some ⟨"https://pc:9440", "admin", "secret", "pc.example", "9440"⟩, false,
            some emptyKube⟩ =
        .ret (.ok (⟨"https://pc:9440", "admin", "secret", "pc.example", "9440"⟩,
          [.WithLogger 0])) ∧
      (⟨"https://pc:9440", "admin", "secret", "pc.example", "9440"⟩ : Credentials).URL =
        (⟨"https://pc:9440", "admin", "secret", "pc.example", "9440"⟩ : Credentials).URL ∧
      (⟨":", "", "", "", ""⟩ : Credentials).URL =
        (stubSys.lookupEnv "NUTANIX_PRISM_CENTRAL_ENDPOINT").getD "" ++ ":" ++
          (stubSys.lookupEnv "NUTANIX_PRISM_CENTRAL_PORT").getD "" ∧
      (⟨":", "", "", "", ""⟩ : Credentials).URL ≠ "" :=
  ⟨rfl,
    (Client_url stubSys ⟨some ⟨"", "admin", "secret", "pc.example", "9440"⟩, false,
        some emptyKube⟩ _ _ rfl).2.2.2.1 _ rfl rfl,
    (Client_url stubSys ⟨some ⟨"", "admin", "secret", "pc.example", "9440"⟩, false,
        some emptyKube⟩ _ _ rfl).2.2.1,
    rfl,
    (Client_url stubSys ⟨some ⟨"https://pc:9440", "admin", "secret", "pc.example", "9440"⟩,
        false, some emptyKube⟩ _ _ rfl).1 _ rfl (by decide),
    ((Client_url stubSys ⟨none, false, some emptyKube⟩ _ _
        rfl).2.2.2.2.2 rfl).1,
    (Client_url stubSys ⟨none, false, some emptyKube⟩ _ _ rfl).2.2.1⟩

/-- C6: when the constructor is reached, then with `Credentials` absent the four fields
are the values of the four environment variables, the empty string for an unset one,
and with `Credentials` present they are the caller's; and the constructor is reached
just the same, with the same options, for every other environment and every other
credentials value, empty ones included. -/
theorem Client_credentials_source {Z Cert : Type} (sys : Collaborators Z Cert)
    (options : ClientOptions) (creds : Credentials) (opts : List (ClientOption Z Cert))
    (h : constructorCall sys options = .ret (.ok (creds, opts))) :
    (options.Credentials = none →
        creds.Username = (sys.lookupEnv "NUTANIX_PRISM_CENTRAL_USER").getD "" ∧
        creds.Password = (sys.lookupEnv "NUTANIX_PRISM_CENTRAL_PASSWORD").getD "" ∧
        creds.Endpoint = (sys.lookupEnv "NUTANIX_PRISM_CENTRAL_ENDPOINT").getD "" ∧
        creds.Port = (sys.lookupEnv "NUTANIX_PRISM_CENTRAL_PORT").getD "") ∧
      (∀ c, options.Credentials = some c →
        creds.Username = c.Username ∧ creds.Password = c.Password ∧
        creds.Endpoint = c.Endpoint ∧ creds.Port = c.Port) ∧
      (∀ (env : String → Option String) (credentials : Option Credentials),
        ∃ creds2, constructorCall
            ⟨env, sys.pem, sys.parseCertificate, sys.newProduction, sys.newDevelopment⟩
            ⟨credentials, options.Debug, options.kubeClient⟩ = .ret (.ok (creds2, opts))) := by
  have hc := constructorCall_credentials sys options creds opts h
  refine ⟨?_, ?_, ?_⟩
  · intro hnone
    rw [hnone] at hc
    simp only [String.length, List.length_nil, if_true] at hc
    subst hc
    simp only [getEnvVar_eq, NutanixUserKey, NutanixPasswordKey, NutanixEndpointKey,
      NutanixPortKey, and_self]
  · intro c hsome
    rw [hsome] at hc
    simp only at hc
    split at hc <;> subst hc <;> exact ⟨rfl, rfl, rfl, rfl⟩
  · intro env credentials
    obtain ⟨z0, z, r, hprod, hsel, hr, hopts⟩ := constructorCall_options sys options creds opts h
    rw [hopts]
    exact constructorCall_reached
      ⟨env, sys.pem, sys.parseCertificate, sys.newProduction, sys.newDevelopment⟩
      ⟨credentials, options.Debug, options.kubeClient⟩ z0 z r hprod hsel hr

theorem Client_credentials_source_witness :
    (⟨"pc.example:", "admin", "", "pc.example", ""⟩ : Credentials).Username =
        (envSys.lookupEnv "NUTANIX_PRISM_CENTRAL_USER").getD "" ∧
      (⟨"pc.example:", "admin", "", "pc.example", ""⟩ : Credentials).Password =
        (envSys.lookupEnv "NUTANIX_PRISM_CENTRAL_PASSWORD").getD "" ∧
      (⟨"pc.example:", "admin", "", "pc.example", ""⟩ : Credentials).Endpoint =
        (envSys.lookupEnv "NUTANIX_PRISM_CENTRAL_ENDPOINT").getD "" ∧
      (⟨"pc.example:", "admin", "", "pc.example", ""⟩ : Credentials).Port =
        (envSys.lookupEnv "NUTANIX_PRISM_CENTRAL_PORT").getD "" :=
  (Client_credentials_source envSys ⟨none, false, some emptyKube⟩ _ _
    call_partial_environment).1 rfl

/-- C7: the option list of the constructor call is the logger option followed by one
trust-anchor option per certificate the loader returned, in the loader's order and
without removing duplicates; the number of trust-anchor options is the number of
certificates returned, zero when the loader returns nothing. -/
theorem Client_trust_anchor_options {Z Cert : Type} (sys : Collaborators Z Cert)
    (options : ClientOptions) (creds : Credentials) (opts : List (ClientOption Z Cert))
    (r : Option (List Cert))
    (h : constructorCall sys options = .ret (.ok (creds, opts)))
    (hr : getCACertificates sys options.kubeClient = .ret r) :
    (∃ z, opts = .WithLogger z :: (r.getD []).map .WithCertificate) ∧
      (opts.filter ClientOption.isCertificate).length = (r.getD []).length ∧
      (r = none → opts.filter ClientOption.isCertificate = []) := by
  obtain ⟨z0, z, r2, hprod, hsel, hr2, hopts⟩ := constructorCall_options sys options creds opts h
  rw [hr] at hr2
  simp only [Go.ret.injEq] at hr2
  subst hr2
  have hfilter : ∀ l : List Cert,
      (l.map (ClientOption.WithCertificate : Cert → ClientOption Z Cert)).filter
        ClientOption.isCertificate = l.map ClientOption.WithCertificate := by
    intro l
    induction l with
    | nil => rfl
    | cons a l ih => simp [List.filter, ClientOption.isCertificate, ih]
  refine ⟨⟨z, hopts⟩, ?_, ?_⟩
  · rw [hopts]
    simp [List.filter, ClientOption.isCertificate, hfilter]
  · intro hnone
    subst hnone
    rw [hopts]
    rfl

theorem Client_trust_anchor_options_witness :
    (∃ z, [ClientOption.WithLogger 0, .WithCertificate 1, .WithCertificate 1] =
        ClientOption.WithLogger z ::
          ((some [1, 1] : Option (List Nat)).getD []).map ClientOption.WithCertificate) ∧
      (([ClientOption.WithLogger 0, .WithCertificate 1, .WithCertificate 1] :
          List (ClientOption Nat Nat)).filter ClientOption.isCertificate).length =
        ((some [1, 1] : Option (List Nat)).getD []).length ∧
      ((some [1, 1] : Option (List Nat)) = none →
        ([ClientOption.WithLogger 0, .WithCertificate 1, .WithCertificate 1] :
          List (ClientOption Nat Nat)).filter ClientOption.isCertificate = []) :=
  Client_trust_anchor_options stubSys
    ⟨none, false, some (stubKube [("ca-bundle.crt", "C1C1")])⟩ _ _ _
    call_duplicate_bundle loader_duplicate

/-- C8 fails as stated in its last clause: the bundle `C1C!` is corrupt (its second
`CERTIFICATE` block does not parse), `Client` returns no error, and yet a trust-anchor
option is attached, the one of the certificate parsed before the malformed block. -/
theorem Client_corrupt_bundle_attaches :
    (∃ b ∈ pemStream stubPem (stringBytes "C1C!"),
        b.Typ = "CERTIFICATE" ∧ ∃ e, stubParse b.Bytes = .error e) ∧
      constructorCall stubSys ⟨none, false, some (stubKube [("ca-bundle.crt", "C1C!")])⟩ =
        .ret (.ok (⟨":", "", "", "", ""⟩, [.WithLogger 0, .WithCertificate 1])) ∧
      Client stubSys (fun _ _ => (.ok 7 : Except Error Nat))
          ⟨none, false, some (stubKube [("ca-bundle.crt", "C1C!")])⟩ = .ret (.ok 7) := by
  refine ⟨?_, call_corrupt_bundle, ?_⟩
  · rw [stream_corrupt_tail]
    exact ⟨⟨"CERTIFICATE", [33]⟩, by simp, rfl, _, rfl⟩
  · rw [Client_eq_constructorCall, call_corrupt_bundle]

/-- C8, amended: `Client` returns an error exactly when a logger construction fails or
the constructor, called with the arguments of `constructorCall`, fails, and then the
error is the failing operation's own, so no outcome of the loader makes `Client` return
an error; when the loggers are built and the loader returns nothing, for whatever
reason, the constructor is called with the logger option alone; and when the bundle is
corrupt, with stream `pre ++ bad :: post` and `bad` its first malformed `CERTIFICATE`
block, the constructor is called with the logger option followed by one trust-anchor
option per `CERTIFICATE` block of `pre`; in both cases `Client` returns what the
constructor returns. -/
theorem Client_error_iff {Z Cert H : Type} (sys : Collaborators Z Cert)
    (newV3Client : Credentials → List (ClientOption Z Cert) → Except Error H)
    (options : ClientOptions) :
    (∀ err, Client sys newV3Client options = .ret (.error err) ↔
        sys.newProduction = .error err ∨
        (options.Debug = true ∧ (∃ z, sys.newProduction = .ok z) ∧
          sys.newDevelopment = .error err) ∨
        (∃ creds opts, constructorCall sys options = .ret (.ok (creds, opts)) ∧
          newV3Client creds opts = .error err)) ∧
      (∀ z0 z, sys.newProduction = .ok z0 →
        (if options.Debug then sys.newDevelopment else .ok z0) = .ok z →
        getCACertificates sys options.kubeClient = .ret none →
        ∃ creds, constructorCall sys options = .ret (.ok (creds, [.WithLogger z])) ∧
          Client sys newV3Client options = .ret (newV3Client creds [.WithLogger z])) ∧
      (∀ z0 z kc cm cacert pre bad post, sys.newProduction = .ok z0 →
        (if options.Debug then sys.newDevelopment else .ok z0) = .ok z →
        options.kubeClient = some kc →
        kc.getConfigMap "openshift-config" "user-ca-bundle" = .ok cm →
        cm.Data.lookup "ca-bundle.crt" = some cacert →
        pemStream sys.pem (stringBytes cacert) = pre ++ bad :: post →
        (∀ b ∈ pre, b.Typ = "CERTIFICATE" → ∃ c, sys.parseCertificate b.Bytes = .ok c) →
        bad.Typ = "CERTIFICATE" → (∃ e, sys.parseCertificate bad.Bytes = .error e) →
        (parsedCertificates sys.parseCertificate pre).length =
            (pre.filter PemBlock.isCertificate).length ∧
          ∃ creds, constructorCall sys options =
              .ret (.ok (creds, .WithLogger z ::
                (parsedCertificates sys.parseCertificate pre).map .WithCertificate)) ∧
            Client sys newV3Client options =
              .ret (newV3Client creds (.WithLogger z ::
                (parsedCertificates sys.parseCertificate pre).map .WithCertificate))) := by
  refine ⟨?_, ?_, ?_⟩
  · intro err
    rw [Client_eq_constructorCall, ← or_assoc, ← constructorCall_error_iff]
    cases hcall : constructorCall sys options with
    | panic => simp
    | ret res =>
      cases res with
      | error e => simp
      | ok args =>
        obtain ⟨creds, opts⟩ := args
        simp only [Go.ret.injEq, Except.ok.injEq, Prod.mk.injEq, reduceCtorEq, false_or]
        constructor
        · intro h
          exact ⟨creds, opts, ⟨rfl, rfl⟩, h⟩
        · rintro ⟨c, o, ⟨rfl, rfl⟩, h⟩
          exact h
  · intro z0 z hprod hsel hr
    obtain ⟨creds, hcall⟩ := constructorCall_reached sys options z0 z none hprod hsel hr
    refine ⟨creds, hcall, ?_⟩
    rw [Client_eq_constructorCall, hcall]
    rfl
  · intro z0 z kc cm cacert pre bad post hprod hsel hkc hget hkey hstream hpre hT hbad
    have hres := getCACertificates_bundle sys kc cm cacert hget hkey
    rw [hstream, certificatesBeforeFailure_append _ pre post bad hpre hT hbad, ← hkc] at hres
    have hgetD : ∀ l : List Cert, (if l.length = 0 then none else some l).getD [] = l := by
      intro l
      cases l with
      | nil => rfl
      | cons x xs => rfl
    obtain ⟨creds, hcall⟩ := constructorCall_reached sys options z0 z _ hprod hsel hres
    rw [hgetD] at hcall
    refine ⟨parsedCertificates_length _ pre hpre, creds, hcall, ?_⟩
    rw [Client_eq_constructorCall, hcall]

theorem Client_error_iff_witness :
    (∃ creds, constructorCall stubSys ⟨none, false, some emptyKube⟩ =
        .ret (.ok (creds, [ClientOption.WithLogger 0])) ∧
      Client stubSys (fun _ _ => (.error "rejected" : Except Error Nat))
          ⟨none, false, some emptyKube⟩ = .ret (.error "rejected")) ∧
      ((parsedCertificates stubParse [⟨"CERTIFICATE", [49]⟩]).length =
          (([⟨"CERTIFICATE", [49]⟩] : List PemBlock).filter PemBlock.isCertificate).length ∧
        ∃ creds, constructorCall stubSys
            ⟨none, false, some (stubKube [("ca-bundle.crt", "C1C!C2")])⟩ =
            .ret (.ok (creds, ClientOption.WithLogger 0 ::
              (parsedCertificates stubParse [⟨"CERTIFICATE", [49]⟩]).map
                ClientOption.WithCertificate)) ∧
          Client stubSys (fun _ clientOpts => (.ok clientOpts.length : Except Error Nat))
              ⟨none, false, some (stubKube [("ca-bundle.crt", "C1C!C2")])⟩ =
            .ret (.ok 2)) ∧
      parsedCertificates stubParse [⟨"CERTIFICATE", [49]⟩] = [1] ∧
      constructorCall stubSys ⟨none, false, some (stubKube [("ca-bundle.crt", "C1C!C2")])⟩ =
        .ret (.ok (⟨":", "", "", "", ""⟩, [.WithLogger 0, .WithCertificate 1])) :=
  ⟨(Client_error_iff stubSys (fun _ _ => (.error "rejected" : Except Error Nat))
      ⟨none, false, some emptyKube⟩).2.1 0 0 rfl rfl rfl,
    (Client_error_iff stubSys (fun _ clientOpts => (.ok clientOpts.length : Except Error Nat))
      ⟨none, false, some (stubKube [("ca-bundle.crt", "C1C!C2")])⟩).2.2 0 0
      (stubKube [("ca-bundle.crt", "C1C!C2")]) ⟨[("ca-bundle.crt", "C1C!C2")]⟩ "C1C!C2"
      [⟨"CERTIFICATE", [49]⟩] ⟨"CERTIFICATE", [33]⟩ [⟨"CERTIFICATE", [50]⟩]
      rfl rfl rfl rfl rfl stream_corrupt_middle (by simp [stubSys, stubParse]) rfl ⟨_, rfl⟩,
    rfl,
    by
      have hloop : decodeLoop stubPem stubParse (stringBytes "C1C!C2") [] = [1] := by
        show decodeLoop stubPem stubParse [67, 49, 67, 33, 67, 50] [] = [1]
        rw [decodeLoop]
        split
        · rename_i h
          exact absurd h (by simp [stubPem, stubDecode])
        · rename_i block rest h
          have hb : (block, rest) = (⟨"CERTIFICATE", [49]⟩, [67, 33, 67, 50]) :=
            Option.some.inj (h.symm.trans rfl)
          cases hb
          simp only [ne_eq, not_true_eq_false, if_false, stubParse, List.nil_append]
          rw [decodeLoop]
          split
          · rename_i h2
            exact absurd h2 (by simp [stubPem, stubDecode])
          · rename_i block2 rest2 h2
            have hb2 : (block2, rest2) = (⟨"CERTIFICATE", [33]⟩, [67, 50]) :=
              Option.some.inj (h2.symm.trans rfl)
            cases hb2
            rfl
      simp only [constructorCall, Client, getCACertificates, stubKube, userCAConfigMapNamespace,
        userCAConfigMap, userCABundleKey, and_self, if_true, List.lookup, beq_self_eq_true,
        stubSys, hloop]
      rfl⟩

/-- C10 fails as stated: with `Debug` true and a development logger that can be built,
`Client` still returns the production logger's construction error, while it reaches the
constructor with the development logger when the production logger can be built. -/
theorem Client_debug_needs_production_logger :
    (⟨fun _ => none, stubPem, stubParse, .error "no production logger", .ok 1⟩ :
        Collaborators Nat Nat).newDevelopment = .ok 1 ∧
      Client (⟨fun _ => none, stubPem, stubParse, .error "no production logger", .ok 1⟩ :
          Collaborators Nat Nat) (fun _ _ => (.ok 7 : Except Error Nat))
          ⟨none, true, some emptyKube⟩ = .ret (.error "no production logger") ∧
      Client (⟨fun _ => none, stubPem, stubParse, .ok 0, .ok 1⟩ : Collaborators Nat Nat)
          (fun _ _ => (.ok 7 : Except Error Nat)) ⟨none, true, some emptyKube⟩ =
        .ret (.ok 7) ∧
      constructorCall (⟨fun _ => none, stubPem, stubParse, .ok 0, .ok 1⟩ :
          Collaborators Nat Nat) ⟨none, true, some emptyKube⟩ =
        .ret (.ok (⟨":", "", "", "", ""⟩, [.WithLogger 1])) := by
  refine ⟨rfl, rfl, rfl, rfl⟩

/-- C10, amended: `Client` fails at the logger stage exactly when the production logger
cannot be built, whatever `Debug` is, or `Debug` is true and the development logger
cannot be built, and it returns that construction error; when it reaches the
constructor, the production logger was built and the logger it passes is the
development one when `Debug` is true and the production one otherwise. -/
theorem Client_logger_selection {Z Cert : Type} (sys : Collaborators Z Cert)
    (options : ClientOptions) :
    (∀ err, constructorCall sys options = .ret (.error err) ↔
        sys.newProduction = .error err ∨
        (options.Debug = true ∧ (∃ z, sys.newProduction = .ok z) ∧
          sys.newDevelopment = .error err)) ∧
      (∀ creds opts, constructorCall sys options = .ret (.ok (creds, opts)) →
        (∃ z0, sys.newProduction = .ok z0) ∧
        ∃ z, opts.head? = some (.WithLogger z) ∧
          (if options.Debug then sys.newDevelopment else sys.newProduction) = .ok z) := by
  refine ⟨constructorCall_error_iff sys options, ?_⟩
  intro creds opts h
  obtain ⟨z0, z, r, hprod, hsel, hr, hopts⟩ := constructorCall_options sys options creds opts h
  refine ⟨⟨z0, hprod⟩, z, by rw [hopts]; rfl, ?_⟩
  cases hdebug : options.Debug with
  | false =>
    rw [hdebug] at hsel
    simp only [Bool.false_eq_true, if_false] at hsel ⊢
    rw [hprod, hsel]
  | true =>
    rw [hdebug] at hsel
    simpa using hsel

theorem Client_logger_selection_witness :
    (∃ z0, stubSys.newProduction = .ok z0) ∧
      ∃ z, ([ClientOption.WithLogger 1] : List (ClientOption Nat Nat)).head? =
          some (.WithLogger z) ∧
        (if (⟨none, true, some emptyKube⟩ : ClientOptions).Debug then stubSys.newDevelopment
          else stubSys.newProduction) = .ok z :=
  (Client_logger_selection stubSys ⟨none, true, some emptyKube⟩).2 ⟨":", "", "", "", ""⟩
    [.WithLogger 1] rfl

end NutanixClient
